import Mathlib

/-!
Verification of the wpaw-backend bridge service.

Shallow embedding of the Redis-backed ledger storage
(`RedisUsersDepositsStorage`), the service layer (`UsersDepositsService`),
the bridge service (`Service`), the L1 wallet watcher (`Paw`) and the
pending-withdrawal queue helper (`RedisProcessingQueue`).

Conventions of the embedding:
* monetary amounts are integers in wei-scale atomic units (the value of
  `ethers.utils.parseEther` on the decimal strings the code passes around);
* `async` calls are sequentialised: `await f(x)` becomes `f x`;
* external effects (receive/send on the L1 chain, enqueued jobs) are
  returned as explicit logs in the result structures;
* external capabilities (signature recovery, the blacklist oracle, chain
  balances, the hash of an outgoing transaction, Redis write success) are
  supplied by environment records.
-/

/-- A record of the blacklist oracle (`PawWalletsBlacklist.BlacklistRecord`);
`aliasName` embeds the source field `alias` (a Lean keyword). -/
structure BlacklistRecord where
  address : String
  aliasName : String
  type : String
deriving Repr, DecidableEq

/-- One entry of an `audit:<key>` Redis hash map.  Deposit and withdrawal
entries leave `pawAddress` as `none`; swap-to-paw entries fill it. -/
structure AuditEntry where
  type : String
  hash : String
  pawAddress : Option String
  amount : Int
  timestamp : Int
deriving Repr, DecidableEq

/-- The Redis key space used by `RedisUsersDepositsStorage`.
Sorted sets are lists of `(score, member)` pairs; map lookups that can miss
are `Option`-valued.  All addresses are stored lowercased, as in the source
(`.toLowerCase()` on every key). -/
structure RedisState where
  /-- `paw-balance:<address>` → decimal integer string. -/
  pawBalance : String → Option Int
  /-- keys `claims:pending:<paw>:<blockchain>`. -/
  pendingClaims : List (String × String)
  /-- keys `claims:<paw>:<blockchain>`. -/
  claims : List (String × String)
  /-- `deposits:<address>` sorted set of transaction hashes scored by time. -/
  deposits : String → List (Int × String)
  /-- `withdrawals:<address>` sorted set of hashes scored by time. -/
  withdrawals : String → List (Int × String)
  /-- `swaps:wpaw-to-paw:<blockchain address>` sorted set of hashes. -/
  swapsWpawToPaw : String → List (Int × String)
  /-- `audit:<hash or receipt>` maps. -/
  audit : String → Option AuditEntry
  /-- `blockchain:blocks:latest`. -/
  lastBlock : Option Int

/-- `String.prototype.toLowerCase()` as applied to every Redis key.
(The standard library's lowercase conversion is not used because its
`mapAux` recursion does not reduce in the kernel.) -/
def toLowercase (s : String) : String := ⟨s.data.map Char.toLower⟩

/-- Redis `ZADD`: adds `(score, member)`; if `member` is already in the set
only its score is updated, the set gains no second copy. -/
def zadd (l : List (Int × String)) (score : Int) (member : String) :
    List (Int × String) :=
  if l.any (fun e => e.2 == member) then
    l.map (fun e => if e.2 == member then (score, member) else e)
  else l ++ [(score, member)]

namespace RedisUsersDepositsStorage

/-- `getUserAvailableBalance`: reads `paw-balance:<from>`; a missing key
yields `BigNumber.from(0)`. -/
def getUserAvailableBalance (st : RedisState) (fromWallet : String) : Int :=
  (st.pawBalance (toLowercase fromWallet)).getD 0

/-- `hasPendingClaim`: `KEYS claims:pending:<paw>:*` is non-empty. -/
def hasPendingClaim (st : RedisState) (pawAddress : String) : Bool :=
  st.pendingClaims.any (fun c => c.1 == (toLowercase pawAddress))

/-- `storePendingClaim`: writes the pending-claim key (TTL 300 s) and
returns `true`; a Redis failure (`redisOk = false`) is caught and returns
`false` with nothing written. -/
def storePendingClaim (redisOk : Bool) (st : RedisState)
    (pawAddress blockchainAddress : String) : Bool × RedisState :=
  if redisOk then
    (true, { st with pendingClaims :=
      st.pendingClaims ++ [((toLowercase pawAddress), (toLowercase blockchainAddress))] })
  else (false, st)

/-- `isClaimed`: `KEYS claims:<paw>:*` is non-empty. -/
def isClaimed (st : RedisState) (pawAddress : String) : Bool :=
  st.claims.any (fun c => c.1 == (toLowercase pawAddress))

/-- `hasClaim`: the exact key `claims:<paw>:<blockchain>` exists. -/
def hasClaim (st : RedisState) (pawAddress blockchainAddress : String) : Bool :=
  st.claims.any (fun c =>
    c.1 == (toLowercase pawAddress) && c.2 == (toLowercase blockchainAddress))

/-- `confirmClaim`: promotes the first pending claim of the address to a
confirmed claim (the pending key itself is not deleted).  When no pending
claim exists the source dereferences `pendingClaims[0]` of an empty array
and crashes; every call site guards with `hasPendingClaim`, and the
embedding returns the state unchanged in that unreachable case. -/
def confirmClaim (st : RedisState) (pawAddress : String) : RedisState :=
  match st.pendingClaims.find? (fun c => c.1 == (toLowercase pawAddress)) with
  | some c => { st with claims := st.claims ++ [c] }
  | none => st

/-- `storeUserDeposit` (storage layer): under the balance lock, adds
`amount` to the balance and commits balance, deposit set entry and audit
map in one `MULTI` batch. -/
def storeUserDeposit (st : RedisState) (rawPawAddress : String)
    (amount timestamp : Int) (hash : String) : RedisState :=
  let pawAddress := (toLowercase rawPawAddress)
  let balance := (st.pawBalance pawAddress).getD 0 + amount
  { st with
    pawBalance := fun k => if k = pawAddress then some balance else st.pawBalance k,
    deposits := fun k =>
      if k = pawAddress then zadd (st.deposits pawAddress) timestamp hash
      else st.deposits k,
    audit := fun k =>
      if k = hash then some ⟨"deposit", hash, none, amount, timestamp⟩
      else st.audit k }

/-- `containsUserDepositTransaction`: `ZRANK deposits:<paw> <hash>` is not
null. -/
def containsUserDepositTransaction (st : RedisState)
    (pawAddress hash : String) : Bool :=
  (st.deposits (toLowercase pawAddress)).any (fun e => e.2 == hash)

/-- `storeUserWithdrawal` (storage layer): subtracts `amount` from the
balance and commits balance, withdrawal set entry and audit map. -/
def storeUserWithdrawal (st : RedisState) (rawPawAddress : String)
    (amount timestamp : Int) (hash : String) : RedisState :=
  let pawAddress := (toLowercase rawPawAddress)
  let balance := (st.pawBalance pawAddress).getD 0 - amount
  { st with
    pawBalance := fun k => if k = pawAddress then some balance else st.pawBalance k,
    withdrawals := fun k =>
      if k = pawAddress then zadd (st.withdrawals pawAddress) timestamp hash
      else st.withdrawals k,
    audit := fun k =>
      if k = hash then some ⟨"withdrawal", hash, none, amount, timestamp⟩
      else st.audit k }

/-- `containsUserWithdrawalRequest`:
`ZCOUNT withdrawals:<paw> <timestamp> <timestamp> === 1`. -/
def containsUserWithdrawalRequest (st : RedisState) (pawAddress : String)
    (timestamp : Int) : Bool :=
  ((st.withdrawals (toLowercase pawAddress)).filter
    (fun e => e.1 == timestamp)).length == 1

/-- `getLastBlockchainBlockProcessed`: the stored cursor, or the configured
`BlockchainWalletPendingTransactionsStartFromBlock` when nothing is stored. -/
def getLastBlockchainBlockProcessed (startFromBlock : Int)
    (st : RedisState) : Int :=
  st.lastBlock.getD startFromBlock

/-- `setLastBlockchainBlockProcessed`: writes `block` only when it is
strictly greater than the current cursor value. -/
def setLastBlockchainBlockProcessed (startFromBlock : Int) (st : RedisState)
    (block : Int) : RedisState :=
  if getLastBlockchainBlockProcessed startFromBlock st < block then
    { st with lastBlock := some block }
  else st

end RedisUsersDepositsStorage

/-- `PawUserWithdrawal` job data (`Withdrawal & {signature, attempt}`);
`amount` is the wei value of the decimal string field. -/
structure PawUserWithdrawal where
  pawWallet : String
  amount : Int
  blockchainWallet : String
  signature : String
  timestamp : Int
  attempt : Nat
deriving Repr, DecidableEq

/-- `SwapWPAWToPaw` job data (`Withdrawal & {wpawBalance, hash}`);
`amount` is the wei value of the decimal string field. -/
structure SwapWPAWToPaw where
  pawWallet : String
  amount : Int
  blockchainWallet : String
  timestamp : Int
  wpawBalance : String
  hash : String
deriving Repr, DecidableEq

/-- A `deposit` job as enqueued by `queueUserDeposit`
(`{sender, amount, timestamp, hash}` without the timestamp, which the
sweep synthesises from the local clock). -/
structure PawUserDeposit where
  sender : String
  amount : Nat
  hash : String
deriving Repr, DecidableEq

namespace RedisUsersDepositsStorage

/-- `swapToPawWasAlreadyDone`:
`ZRANK swaps:wpaw-to-paw:<blockchain> <hash>` is not null. -/
def swapToPawWasAlreadyDone (st : RedisState) (swap : SwapWPAWToPaw) : Bool :=
  (st.swapsWpawToPaw (toLowercase swap.blockchainWallet)).any
    (fun e => e.2 == swap.hash)

/-- `storeUserSwapToPaw` (storage layer): under the balance lock, re-checks
`swapToPawWasAlreadyDone` (skipping if so), then credits the balance by the
swap amount and commits balance, swap set entry and audit map. -/
def storeUserSwapToPaw (st : RedisState) (swap : SwapWPAWToPaw) : RedisState :=
  if swapToPawWasAlreadyDone st swap then st
  else
    let addr := (toLowercase swap.pawWallet)
    let evm := (toLowercase swap.blockchainWallet)
    let balance := (st.pawBalance addr).getD 0 + swap.amount
    { st with
      pawBalance := fun k => if k = addr then some balance else st.pawBalance k,
      swapsWpawToPaw := fun k =>
        if k = evm then zadd (st.swapsWpawToPaw evm) (swap.timestamp * 1000) swap.hash
        else st.swapsWpawToPaw k,
      audit := fun k =>
        if k = swap.hash then
          some ⟨"swap-to-paw", swap.hash, some addr, swap.amount, swap.timestamp * 1000⟩
        else st.audit k }

end RedisUsersDepositsStorage

namespace UsersDepositsService

/-- Service-level `storePendingClaim`: refuses (returns `false`) when a
pending claim for the address already exists, otherwise delegates to the
storage layer. -/
def storePendingClaim (redisOk : Bool) (st : RedisState)
    (pawAddress blockchainAddress : String) : Bool × RedisState :=
  if RedisUsersDepositsStorage.hasPendingClaim st pawAddress then (false, st)
  else RedisUsersDepositsStorage.storePendingClaim redisOk st pawAddress blockchainAddress

/-- Service-level `storeUserDeposit`: skips the store entirely when the
transaction hash was already ingested for the address. -/
def storeUserDeposit (st : RedisState) (pawAddress : String)
    (amount timestamp : Int) (hash : String) : RedisState :=
  if RedisUsersDepositsStorage.containsUserDepositTransaction st pawAddress hash then st
  else RedisUsersDepositsStorage.storeUserDeposit st pawAddress amount timestamp hash

/-- Service-level `storeUserWithdrawal`: skips the store when a withdrawal
at the same timestamp was already ingested for the address. -/
def storeUserWithdrawal (st : RedisState) (pawAddress : String)
    (amount timestamp : Int) (hash : String) : RedisState :=
  if RedisUsersDepositsStorage.containsUserWithdrawalRequest st pawAddress timestamp then st
  else RedisUsersDepositsStorage.storeUserWithdrawal st pawAddress amount timestamp hash

end UsersDepositsService

/-- `ClaimResponse` enumeration of `Service.claim` outcomes. -/
inductive ClaimResponse where
  | ok
  | error
  | blacklisted
  | invalidOwner
  | invalidSignature
  | alreadyDone
deriving Repr, DecidableEq

/-- External capabilities of `Service`: EIP-191 signature recovery
(`ethers.utils.verifyMessage`), EIP-55 checksum normalisation
(`ethers.utils.getAddress`), the blacklist oracle, Redis write success for
pending claims, the hot wallet balance read by `paw.getBalance`, and the
transaction hash produced by `paw.sendPaw`. -/
structure ServiceEnv where
  recover : String → String → String
  getAddress : String → String
  blacklist : String → Option BlacklistRecord
  storePendingClaimOk : Bool
  hotWalletBalance : Int
  sendPawHash : String

namespace Service

/-- `Service.checkSignature`: the recovered author of the expected message
must equal the checksum-normalised wallet. -/
def checkSignature (env : ServiceEnv)
    (blockchainWallet signature expected : String) : Bool :=
  env.recover expected signature == env.getAddress blockchainWallet

/-- The literal claim challenge built in `Service.claim`. -/
def claimChallenge (pawWallet : String) : String :=
  "I hereby claim that the PAW address \"" ++ pawWallet ++ "\" is mine"

/-- `Service.claim`: signature check, blacklist check, already-done check,
pending-claim collision check, then store of the pending claim. -/
def claim (env : ServiceEnv) (st : RedisState)
    (pawWallet blockchainWallet signature : String) :
    ClaimResponse × RedisState :=
  if !(checkSignature env blockchainWallet signature (claimChallenge pawWallet)) then
    (ClaimResponse.invalidSignature, st)
  else
    match env.blacklist pawWallet with
    | some _ => (ClaimResponse.blacklisted, st)
    | none =>
      if RedisUsersDepositsStorage.hasClaim st pawWallet blockchainWallet then
        (ClaimResponse.alreadyDone, st)
      else if !(RedisUsersDepositsStorage.hasPendingClaim st pawWallet) then
        match UsersDepositsService.storePendingClaim env.storePendingClaimOk st
          pawWallet blockchainWallet with
        | (true, st') => (ClaimResponse.ok, st')
        | (false, st') => (ClaimResponse.error, st')
      else (ClaimResponse.invalidOwner, st)

/-- `Service.processSwapToPAW`: returns `{hash, wpawBalance}`; when the
swap hash is not yet recorded it first stores the swap (which credits the
balance). -/
def processSwapToPAW (st : RedisState) (swap : SwapWPAWToPaw) :
    RedisState × String × String :=
  if RedisUsersDepositsStorage.swapToPawWasAlreadyDone st swap then
    (st, swap.hash, swap.wpawBalance)
  else
    (RedisUsersDepositsStorage.storeUserSwapToPaw st swap, swap.hash, swap.wpawBalance)

end Service

/-- A delayed pending-withdrawal job as scheduled by
`RedisProcessingQueue.addPawUserPendingWithdrawal`. -/
structure PendingWithdrawalJob where
  jobId : String
  delay : Nat
  removeOnFail : Bool
  data : PawUserWithdrawal
deriving Repr, DecidableEq

namespace RedisProcessingQueue

/-- `PENDING_WITHDRAWAL_RETRY_DELAY = 1 * 60 * 1_000` milliseconds. -/
def PENDING_WITHDRAWAL_RETRY_DELAY : Nat := 1 * 60 * 1000

/-- `addPawUserPendingWithdrawal`: increments `attempt` on the withdrawal
object itself (the caller's object is mutated in place, which the embedding
renders by returning the updated withdrawal) and schedules a delayed job
with `removeOnFail` set. -/
def addPawUserPendingWithdrawal (w : PawUserWithdrawal) :
    PawUserWithdrawal × PendingWithdrawalJob :=
  let withdrawal := { w with attempt := w.attempt + 1 }
  (withdrawal,
    { jobId := "pending-paw-withdrawal-" ++ withdrawal.pawWallet ++ "-"
        ++ toString withdrawal.timestamp ++ "-attempt-"
        ++ toString withdrawal.attempt,
      delay := withdrawal.attempt * PENDING_WITHDRAWAL_RETRY_DELAY,
      removeOnFail := true,
      data := withdrawal })

end RedisProcessingQueue

/-- Result of `Service.processWithdrawPAW` when no error is thrown:
the ledger state, any pending-withdrawal job enqueued by
`eventuallySendPaw`, the `sendPaw` transfers performed, the returned hash
(`""` when the withdrawal went pending), and the withdrawal object as the
caller sees it afterwards (its `attempt` field may have been mutated by
`addPawUserPendingWithdrawal`). -/
structure WithdrawOutcome where
  state : RedisState
  pendingEnqueued : List PendingWithdrawalJob
  sent : List (String × Int)
  hash : String
  withdrawal : PawUserWithdrawal

namespace Service

/-- The literal withdrawal challenge built in `Service.processWithdrawPAW`;
`amountStr` is the decimal string of the withdrawal amount. -/
def withdrawChallenge (amountStr pawWallet : String) : String :=
  "Withdraw " ++ amountStr ++ " PAW to my wallet \"" ++ pawWallet ++ "\""

/-- `Service.processWithdrawPAW` (with `eventuallySendPaw` inlined at step
6, as in the source).  `amountStr` is the decimal string form of
`w.amount`, used only to build the signature challenge.

The source guards at lines 212–219 read
`!this.usersDepositsService.isClaimed(pawWallet)` and
`!this.usersDepositsService.hasClaim(pawWallet, blockchainWallet)` without
`await`: the operand is the `Promise` object itself, which is always
truthy, so both negations are always `false` and neither `throw` can ever
run.  The embedding renders those two dead guards as skipped. -/
def processWithdrawPAW (env : ServiceEnv) (st : RedisState)
    (w : PawUserWithdrawal) (amountStr : String) (signature : Option String) :
    Except String WithdrawOutcome :=
  if RedisUsersDepositsStorage.containsUserWithdrawalRequest st w.pawWallet w.timestamp then
    Except.error "Can't withdraw PAW as the transaction was already processed"
  else if (match signature with
    | some s => !(checkSignature env w.blockchainWallet s
        (withdrawChallenge amountStr w.pawWallet))
    | none => false) then
    Except.error "InvalidSignatureError"
  else if w.amount < 0 then
    Except.error "Can't withdraw negative amounts of PAW"
  else if RedisUsersDepositsStorage.getUserAvailableBalance st w.pawWallet < w.amount then
    Except.error "InsufficientBalanceError"
  else if env.hotWalletBalance < w.amount then
    let (withdrawal, job) := RedisProcessingQueue.addPawUserPendingWithdrawal w
    Except.ok { state := st, pendingEnqueued := [job], sent := [],
                hash := "", withdrawal := withdrawal }
  else
    let hash := env.sendPawHash
    Except.ok { state := UsersDepositsService.storeUserWithdrawal st
                  w.pawWallet w.amount w.timestamp hash,
                pendingEnqueued := [], sent := [(w.pawWallet, w.amount)],
                hash := hash, withdrawal := w }

/-- The worker installed for `paw-withdrawal` jobs
(`Service.withdrawalProcessor`): runs `processWithdrawPAW`; a non-empty
hash is returned as the completed transaction; an empty hash completes
normally when the job object's `attempt` field reads `1` afterwards, and
otherwise the worker throws the "replaced" error.  The successful return
carries the outcome and the `transaction` field of the job result. -/
def withdrawalProcessor (env : ServiceEnv) (st : RedisState)
    (w : PawUserWithdrawal) (amountStr : String) (signature : Option String) :
    Except String (WithdrawOutcome × String) :=
  match processWithdrawPAW env st w amountStr signature with
  | Except.error e => Except.error e
  | Except.ok r =>
    if r.hash ≠ "" then Except.ok (r, r.hash)
    else if r.withdrawal.attempt == 1 then Except.ok (r, "")
    else Except.error "Old pending withdrawal request replaced by a new one"

end Service

/-- External capabilities of the `Paw` watcher: the total (settled plus
pending) hot wallet balance read by `getTotalBalance`, the configured hot
wallet minimum (`parseEther(config.PawUsersDepositsHotWalletMinimum)`), the
configured hot-to-cold ratio percentage
(`parseFloat(config.PawUsersDepositsHotWalletToColdWalletRatio)`), the
cold wallet address, and the IEEE-754 two-decimal comparison of
`processUserDeposit`.  Balances and config values are non-negative, so
they are carried as `Nat`. -/
structure PawEnv where
  hotTotalBalance : Nat
  hotWalletMinimum : Nat
  coldWalletRatio : Nat
  coldWallet : String
  /-- The `number !== rounded` comparison of `processUserDeposit`
  (`number = Number.parseFloat(ethers.utils.formatEther(amount))`,
  `rounded = Math.round(number * 100) / 100`) as a function of the wei
  amount.  This is an IEEE-754 double computation, carried as an external
  capability of the runtime like the chain and signature primitives; it
  approximates, but does not coincide with, the exact two-decimal test
  `Paw.specHasMoreThanTwoDecimals` (see the C3 theorem). -/
  floatRoundTripDiffers : Nat → Bool

namespace Paw

/-- Modelled from the spec: invariant I6's "more than two decimal places
of native coin", for which the design notes prescribe the exact modular
test on atomic units — for an 18-decimal wei amount, "not divisible by
10^16".  This spec-side property is what claim C3 speaks about; the
source's float round-trip check at the same program point is carried as
the capability `PawEnv.floatRoundTripDiffers` and diverges from it on
reachable inputs (see the C3 theorem). -/
def specHasMoreThanTwoDecimals (amount : Nat) : Bool :=
  amount % 10 ^ 16 != 0

/-- `Paw.eventuallySendToColdWallet` as a function from the hot wallet
total balance, configured minimum, the deposit just credited and the
configured ratio (all in wei except `ratio`, a percentage) to the amount
transferred to the cold wallet (`none` when no transfer happens).

Source steps: `amountAboveMinimum = hotTotal - minimum`, stop if `≤ 0`;
`amount = min(amountAboveMinimum, deposit)`;
`rounded = parseInt(formatUnits(amount, 18))` (truncation to whole units);
`targetRatio = 100 - ratio`;
`amount = parseEther(rounded) / 100 * targetRatio`; stop if `0`. -/
def eventuallySendToColdWallet (hotTotal minimum deposit ratio : Nat) :
    Option Nat :=
  if hotTotal ≤ minimum then none
  else
    let amountAboveMinimum := hotTotal - minimum
    let amount := if amountAboveMinimum > deposit then deposit else amountAboveMinimum
    let rounded := amount / 10 ^ 18
    let targetRatio := 100 - ratio
    let scaled := rounded * 10 ^ 18 / 100 * targetRatio
    if scaled = 0 then none else some scaled

/-- Result of `Paw.processUserDeposit`: the ledger state, the
`receiveTransaction` calls, the `sendPaw` calls (refunds to the sender and
the hot-to-cold transfer), whether the hot/cold sweep ran, and the boolean
the job processor reports (`false` means the deposit was rejected). -/
structure DepositOutcome where
  state : RedisState
  received : List String
  sent : List (String × Int)
  sweepInvoked : Bool
  result : Bool

/-- Steps 1–2 of `Paw.processUserDeposit`: when a pending claim for the
sender exists, confirm it. -/
def claimPromoted (st : RedisState) (sender : String) : RedisState :=
  if RedisUsersDepositsStorage.hasPendingClaim st sender then
    RedisUsersDepositsStorage.confirmClaim st sender
  else st

/-- `Paw.processUserDeposit`: confirm a pending claim if one exists,
receive the transaction, then refund (unclaimed sender), refund (the float
round-trip comparison flags the amount) or store the deposit and run the
hot/cold sweep. -/
def processUserDeposit (env : PawEnv) (st : RedisState) (sender : String)
    (amount : Nat) (timestamp : Int) (hash : String) : DepositOutcome :=
  let st1 := claimPromoted st sender
  if !(RedisUsersDepositsStorage.isClaimed st1 sender) then
    { state := st1, received := [hash], sent := [(sender, (amount : Int))],
      sweepInvoked := false, result := false }
  else if env.floatRoundTripDiffers amount then
    { state := st1, received := [hash], sent := [(sender, (amount : Int))],
      sweepInvoked := false, result := false }
  else
    let st2 := UsersDepositsService.storeUserDeposit st1 sender (amount : Int)
      timestamp hash
    let coldSend := eventuallySendToColdWallet env.hotTotalBalance
      env.hotWalletMinimum amount env.coldWalletRatio
    { state := st2, received := [hash],
      sent := match coldSend with
        | some a => [(env.coldWallet, (a : Int))]
        | none => [],
      sweepInvoked := true, result := true }

end Paw

/-- One pending receivable of the hot wallet as returned by
`getAccountsPending`: the transaction hash, the raw amount as a digit
string, and the sending wallet (`transaction.source`). -/
structure PendingTx where
  hash : String
  amount : String
  source : String
deriving Repr, DecidableEq

namespace Paw

/-- `BigNumber.from(amount.substring(0, amount.length - 9))`: parse the
digit string left after stripping the nine least significant characters.
An empty or non-digit remainder makes `BigNumber.from` throw, rendered as
`none`. -/
def stripRawDigits (s : String) : Option Nat :=
  let digits := s.data.take (s.data.length - 9)
  if digits = [] ∨ ¬ digits.all Char.isDigit then none
  else some (digits.foldl (fun n c => n * 10 + (c.toNat - 48)) 0)

/-- `Paw.processPendingTransactions` (the 60-second sweep), as a function
of the pending receivables list.  Returns the `receiveTransaction` calls
made and the deposit jobs enqueued via `queueUserDeposit`.

Per iteration the source runs in a `try`/`catch` that logs and continues;
the only throwing step in this embedding's scope is `BigNumber.from` on a
string that is not a valid number (`stripRawDigits = none`), so that case
continues with the next receivable.  A raw amount shorter than 9 digits is
received in place and the function returns; a receivable sent by the hot
or cold wallet is received in place and the function returns (both are
`return`, not `continue`, in the source). -/
def processPendingTransactions (hot cold : String) :
    List PendingTx → List String × List PawUserDeposit
  | [] => ([], [])
  | tx :: rest =>
    if tx.amount.length < 9 then ([tx.hash], [])
    else
      match stripRawDigits tx.amount with
      | none => processPendingTransactions hot cold rest
      | some pawAmount =>
        if tx.source == hot || tx.source == cold then ([tx.hash], [])
        else
          ((processPendingTransactions hot cold rest).1,
            ⟨tx.source, pawAmount, tx.hash⟩ :: (processPendingTransactions hot cold rest).2)

/-- A receivable at which the sweep stops: a raw amount of fewer than nine
digits, or a parseable amount sent by the hot or cold wallet. -/
def sweepStop (hot cold : String) (tx : PendingTx) : Bool :=
  decide (tx.amount.length < 9) ||
    ((stripRawDigits tx.amount).isSome
      && (tx.source == hot || tx.source == cold))

/-- The deposit job the sweep builds for a receivable, when its raw amount
parses after stripping the nine least significant digits. -/
def sweepDepositJob (tx : PendingTx) : Option PawUserDeposit :=
  (stripRawDigits tx.amount).map
    (fun pawAmount => ⟨tx.source, pawAmount, tx.hash⟩)

end Paw

/-- Number of entries for a given transaction hash in an address's deposit
set. -/
def depositRecordCount (st : RedisState) (pawAddress hash : String) : Nat :=
  ((st.deposits (toLowercase pawAddress)).filter (fun e => e.2 == hash)).length

/-- An empty Redis key space (fresh installation). -/
def emptyRedisState : RedisState where
  pawBalance := fun _ => none
  pendingClaims := []
  claims := []
  deposits := fun _ => []
  withdrawals := fun _ => []
  swapsWpawToPaw := fun _ => []
  audit := fun _ => none
  lastBlock := none

/-- A concrete `ServiceEnv` used for evaluating the embedding: signature
recovery always returns `"0xabc"`, checksum normalisation is the identity,
the blacklist is empty, Redis writes succeed, the hot wallet holds 300 PAW
and outgoing transfers hash to `"0xhash"`. -/
def testServiceEnv : ServiceEnv where
  recover := fun _ _ => "0xabc"
  getAddress := fun a => a
  blacklist := fun _ => none
  storePendingClaimOk := true
  hotWalletBalance := 300 * 10 ^ 18
  sendPawHash := "0xhash"

/-- A concrete `PawEnv`: the hot wallet totals 20 PAW, the configured
minimum is 10 PAW, and the hot-to-cold ratio is 20 %; its float comparison
is taken to be the exact two-decimal test, which is the value the IEEE-754
computation produces on small amounts such as 1.0 or 1.466 PAW. -/
def testPawEnv : PawEnv where
  hotTotalBalance := 20 * 10 ^ 18
  hotWalletMinimum := 10 * 10 ^ 18
  coldWalletRatio := 20
  coldWallet := "paw_cold"
  floatRoundTripDiffers := Paw.specHasMoreThanTwoDecimals

/-- A state in which `paw_alice` has a 200 PAW ledger balance and no claim
at all. -/
def unclaimedAliceState : RedisState :=
  { emptyRedisState with
    pawBalance := fun k => if k = "paw_alice" then some (200 * 10 ^ 18) else none }

/-- Modelled from the spec: the outcome the delayed-retry contract of
§4.2 prescribes for an insufficient-hot-balance withdrawal — nothing sent
and nothing stored, one delayed job whose attempt counter is incremented by
one, whose delay is attempt × 60 000 ms, and which is removed on failure;
the caller's withdrawal object carries the incremented attempt. -/
def specPendingWithdrawalOutcome (st : RedisState) (w : PawUserWithdrawal) :
    WithdrawOutcome :=
  { state := st
    pendingEnqueued := [{
      jobId := "pending-paw-withdrawal-" ++ w.pawWallet ++ "-"
        ++ toString w.timestamp ++ "-attempt-" ++ toString (w.attempt + 1)
      delay := (w.attempt + 1) * 60000
      removeOnFail := true
      data := { w with attempt := w.attempt + 1 } }]
    sent := []
    hash := ""
    withdrawal := { w with attempt := w.attempt + 1 } }

/-! Helper lemmas shared by several claim theorems. -/

/-- A `ZADD` leaves the member present in the set. -/
theorem zadd_contains (l : List (Int × String)) (score : Int) (member : String) :
    (zadd l score member).any (fun e => e.2 == member) = true := by
  unfold zadd
  split_ifs with h
  · simp only [List.any_eq_true] at h ⊢
    obtain ⟨e, he, hm⟩ := h
    refine ⟨(score, member), List.mem_map.mpr ⟨e, he, ?_⟩, by simp⟩
    simp [hm]
  · simp

/-- Promoting a pending claim touches only the claim keys: balances,
deposit sets, withdrawal sets, swap sets and audit maps are unchanged. -/
theorem claimPromoted_preserves (st : RedisState) (sender : String) :
    (Paw.claimPromoted st sender).pawBalance = st.pawBalance ∧
    (Paw.claimPromoted st sender).deposits = st.deposits ∧
    (Paw.claimPromoted st sender).withdrawals = st.withdrawals ∧
    (Paw.claimPromoted st sender).swapsWpawToPaw = st.swapsWpawToPaw ∧
    (Paw.claimPromoted st sender).audit = st.audit := by
  unfold Paw.claimPromoted RedisUsersDepositsStorage.confirmClaim
  split_ifs with h
  · cases st.pendingClaims.find? (fun c => c.1 == (toLowercase sender)) <;> simp
  · simp

/-- C10: for every native address with no stored balance record, reading
the available balance returns exactly `0` rather than an error, so balance
queries are total over all addresses, including never-seen ones. -/
theorem c10_missing_balance_reads_zero (st : RedisState) (fromWallet : String)
    (h : st.pawBalance (toLowercase fromWallet) = none) :
    RedisUsersDepositsStorage.getUserAvailableBalance st fromWallet = 0 := by
  simp [RedisUsersDepositsStorage.getUserAvailableBalance, h]

/-- Witness for C10: the empty key space stores nothing for `paw_nobody`,
and its available balance reads `0`. -/
theorem c10_missing_balance_reads_zero_witness :
    emptyRedisState.pawBalance (toLowercase "paw_nobody") = none ∧
    RedisUsersDepositsStorage.getUserAvailableBalance emptyRedisState "paw_nobody" = 0 :=
  ⟨rfl, c10_missing_balance_reads_zero emptyRedisState "paw_nobody" rfl⟩

/-- C9: the EVM scan cursor is monotonically non-decreasing: a write
happens only when the new block is strictly greater than the current
cursor, and no sequence of `setLastBlockchainBlockProcessed` calls ever
decreases the value read back by `getLastBlockchainBlockProcessed`. -/
theorem c9_scan_cursor_monotone :
    (∀ (startFromBlock : Int) (st : RedisState) (block : Int),
      block ≤ RedisUsersDepositsStorage.getLastBlockchainBlockProcessed startFromBlock st →
      RedisUsersDepositsStorage.setLastBlockchainBlockProcessed startFromBlock st block = st) ∧
    (∀ (startFromBlock : Int) (st : RedisState) (blocks : List Int),
      RedisUsersDepositsStorage.getLastBlockchainBlockProcessed startFromBlock st ≤
        RedisUsersDepositsStorage.getLastBlockchainBlockProcessed startFromBlock
          (blocks.foldl
            (RedisUsersDepositsStorage.setLastBlockchainBlockProcessed startFromBlock) st)) := by
  constructor
  · intro startFromBlock st block h
    unfold RedisUsersDepositsStorage.setLastBlockchainBlockProcessed
    rw [if_neg (not_lt.mpr h)]
  · intro startFromBlock st blocks
    induction blocks generalizing st with
    | nil => simp
    | cons b rest ih =>
      refine le_trans ?_ (ih (RedisUsersDepositsStorage.setLastBlockchainBlockProcessed startFromBlock st b))
      unfold RedisUsersDepositsStorage.setLastBlockchainBlockProcessed
      split_ifs with h
      · simpa [RedisUsersDepositsStorage.getLastBlockchainBlockProcessed] using le_of_lt h
      · exact le_rfl

/-- Witness for C9: with start block `0` and an empty store, advancing to
block `-1` writes nothing, and the folded sequence `[5, 3, 7, 2]` never
decreases the cursor below its initial read. -/
theorem c9_scan_cursor_monotone_witness :
    RedisUsersDepositsStorage.setLastBlockchainBlockProcessed 0 emptyRedisState (-1)
      = emptyRedisState ∧
    RedisUsersDepositsStorage.getLastBlockchainBlockProcessed 0 emptyRedisState ≤
      RedisUsersDepositsStorage.getLastBlockchainBlockProcessed 0
        ([5, 3, 7, 2].foldl
          (RedisUsersDepositsStorage.setLastBlockchainBlockProcessed 0) emptyRedisState) :=
  ⟨c9_scan_cursor_monotone.1 0 emptyRedisState (-1) (by decide),
   c9_scan_cursor_monotone.2 0 emptyRedisState [5, 3, 7, 2]⟩

/-- C6: with configured minimum 10 PAW and hot/cold ratio 20 %, each row
(hot-wallet balance before deposit, deposit, expected cold send) of
{(10, 10, 8.0), (5, 12, 5.6), (0, 11, 0.8), (20, 10, 8.0), (10, 4.12, 3.2)}
transfers exactly the expected amount to the cold wallet, where the hot
total balance seen by the sweep is the pre-balance plus the deposit and
the sent amount is min(hotBalance − minimum, deposit) floored to whole
units and scaled by (100 − ratio)/100; when the hot balance is at most the
minimum, or the computed send is 0, no transfer occurs. -/
theorem c6_hot_cold_split_table :
    Paw.eventuallySendToColdWallet ((10 + 10) * 10 ^ 18) (10 * 10 ^ 18)
      (10 * 10 ^ 18) 20 = some (8 * 10 ^ 18) ∧
    Paw.eventuallySendToColdWallet ((5 + 12) * 10 ^ 18) (10 * 10 ^ 18)
      (12 * 10 ^ 18) 20 = some (56 * 10 ^ 17) ∧
    Paw.eventuallySendToColdWallet ((0 + 11) * 10 ^ 18) (10 * 10 ^ 18)
      (11 * 10 ^ 18) 20 = some (8 * 10 ^ 17) ∧
    Paw.eventuallySendToColdWallet ((20 + 10) * 10 ^ 18) (10 * 10 ^ 18)
      (10 * 10 ^ 18) 20 = some (8 * 10 ^ 18) ∧
    Paw.eventuallySendToColdWallet (10 * 10 ^ 18 + 412 * 10 ^ 16) (10 * 10 ^ 18)
      (412 * 10 ^ 16) 20 = some (32 * 10 ^ 17) ∧
    (∀ hotTotal minimum deposit ratio : Nat, hotTotal ≤ minimum →
      Paw.eventuallySendToColdWallet hotTotal minimum deposit ratio = none) ∧
    (∀ hotTotal minimum deposit ratio a : Nat,
      Paw.eventuallySendToColdWallet hotTotal minimum deposit ratio = some a →
      a ≠ 0) := by
  refine ⟨by decide, by decide, by decide, by decide, by decide, ?_, ?_⟩
  · intro hotTotal minimum deposit ratio h
    unfold Paw.eventuallySendToColdWallet
    rw [if_pos h]
  · intro hotTotal minimum deposit ratio a h
    by_cases hm : hotTotal ≤ minimum
    · unfold Paw.eventuallySendToColdWallet at h
      rw [if_pos hm] at h
      exact Option.noConfusion h
    · unfold Paw.eventuallySendToColdWallet at h
      rw [if_neg hm] at h
      dsimp only at h
      split_ifs at h <;>
        first
          | exact Option.noConfusion h
          | (cases h; assumption)

/-- Witness for C6: a hot balance of 5 at minimum 10 sends nothing, and
the first table row's transfer of 8 PAW is non-zero. -/
theorem c6_hot_cold_split_table_witness :
    Paw.eventuallySendToColdWallet 5 10 3 20 = none ∧
    (8 * 10 ^ 18 : Nat) ≠ 0 :=
  ⟨c6_hot_cold_split_table.2.2.2.2.2.1 5 10 3 20 (by decide),
   c6_hot_cold_split_table.2.2.2.2.2.2 ((10 + 10) * 10 ^ 18) (10 * 10 ^ 18)
     (10 * 10 ^ 18) 20 (8 * 10 ^ 18) c6_hot_cold_split_table.1⟩

/-- C2: every claim request yields exactly one outcome, decided in order:
`invalidSignature` when the challenge signature does not recover to the
blockchain wallet; `blacklisted` when the oracle reports the native wallet;
`alreadyDone` when a claim already binds the pair; `invalidOwner` when any
pending claim exists for the native wallet; otherwise the pending claim is
stored and `ok` (or `error` when the Redis write fails) is returned, and in
every non-`ok` outcome the state is unchanged (no pending claim stored). -/
theorem c2_claim_outcomes (env : ServiceEnv) (st : RedisState)
    (pawWallet blockchainWallet signature : String) :
    ((Service.claim env st pawWallet blockchainWallet signature).1
        = ClaimResponse.invalidSignature ↔
      Service.checkSignature env blockchainWallet signature
        (Service.claimChallenge pawWallet) = false) ∧
    ((Service.claim env st pawWallet blockchainWallet signature).1
        = ClaimResponse.blacklisted ↔
      Service.checkSignature env blockchainWallet signature
        (Service.claimChallenge pawWallet) = true ∧
      (env.blacklist pawWallet).isSome = true) ∧
    ((Service.claim env st pawWallet blockchainWallet signature).1
        = ClaimResponse.alreadyDone ↔
      Service.checkSignature env blockchainWallet signature
        (Service.claimChallenge pawWallet) = true ∧
      (env.blacklist pawWallet).isSome = false ∧
      RedisUsersDepositsStorage.hasClaim st pawWallet blockchainWallet = true) ∧
    ((Service.claim env st pawWallet blockchainWallet signature).1
        = ClaimResponse.invalidOwner ↔
      Service.checkSignature env blockchainWallet signature
        (Service.claimChallenge pawWallet) = true ∧
      (env.blacklist pawWallet).isSome = false ∧
      RedisUsersDepositsStorage.hasClaim st pawWallet blockchainWallet = false ∧
      RedisUsersDepositsStorage.hasPendingClaim st pawWallet = true) ∧
    ((Service.claim env st pawWallet blockchainWallet signature).1
        = ClaimResponse.ok ↔
      Service.checkSignature env blockchainWallet signature
        (Service.claimChallenge pawWallet) = true ∧
      (env.blacklist pawWallet).isSome = false ∧
      RedisUsersDepositsStorage.hasClaim st pawWallet blockchainWallet = false ∧
      RedisUsersDepositsStorage.hasPendingClaim st pawWallet = false ∧
      env.storePendingClaimOk = true) ∧
    ((Service.claim env st pawWallet blockchainWallet signature).1
        = ClaimResponse.error ↔
      Service.checkSignature env blockchainWallet signature
        (Service.claimChallenge pawWallet) = true ∧
      (env.blacklist pawWallet).isSome = false ∧
      RedisUsersDepositsStorage.hasClaim st pawWallet blockchainWallet = false ∧
      RedisUsersDepositsStorage.hasPendingClaim st pawWallet = false ∧
      env.storePendingClaimOk = false) ∧
    ((Service.claim env st pawWallet blockchainWallet signature).2
        = if (Service.claim env st pawWallet blockchainWallet signature).1
            = ClaimResponse.ok then
          { st with pendingClaims := st.pendingClaims
              ++ [((toLowercase pawWallet), (toLowercase blockchainWallet))] }
        else st) := by
  cases hs : Service.checkSignature env blockchainWallet signature
      (Service.claimChallenge pawWallet) with
  | false =>
    simp [Service.claim, hs]
  | true =>
    cases hb : env.blacklist pawWallet with
    | some record => simp [Service.claim, hs, hb]
    | none =>
      cases hc : RedisUsersDepositsStorage.hasClaim st pawWallet blockchainWallet with
      | true => simp [Service.claim, hs, hb, hc]
      | false =>
        cases hp : RedisUsersDepositsStorage.hasPendingClaim st pawWallet with
        | true => simp [Service.claim, hs, hb, hc, hp]
        | false =>
          cases hok : env.storePendingClaimOk with
          | true =>
            simp [Service.claim, UsersDepositsService.storePendingClaim,
              RedisUsersDepositsStorage.storePendingClaim, hs, hb, hc, hp, hok]
          | false =>
            simp [Service.claim, UsersDepositsService.storePendingClaim,
              RedisUsersDepositsStorage.storePendingClaim, hs, hb, hc, hp, hok]

/-- A service-level deposit store always leaves the transaction hash
present in the address's deposit set. -/
theorem storeUserDeposit_contains (st : RedisState) (addr : String)
    (amount timestamp : Int) (hash : String) :
    RedisUsersDepositsStorage.containsUserDepositTransaction
      (UsersDepositsService.storeUserDeposit st addr amount timestamp hash)
      addr hash = true := by
  unfold UsersDepositsService.storeUserDeposit
  split_ifs with h
  · exact h
  · simp [RedisUsersDepositsStorage.containsUserDepositTransaction,
      RedisUsersDepositsStorage.storeUserDeposit, zadd_contains]

/-- Branch structure of `Paw.processUserDeposit`: after promoting any
pending claim the transaction hash is always received; an unclaimed sender
gets the full amount refunded with no deposit stored; a claimed sender
whose amount is flagged by the float round-trip comparison gets the full
amount refunded with no deposit stored; otherwise the deposit is stored
and the hot/cold sweep is invoked. -/
theorem processUserDeposit_cases (env : PawEnv) (st : RedisState)
    (sender : String) (amount : Nat) (timestamp : Int) (hash : String) :
    (Paw.processUserDeposit env st sender amount timestamp hash).received = [hash] ∧
    (RedisUsersDepositsStorage.isClaimed (Paw.claimPromoted st sender) sender = false →
      (Paw.processUserDeposit env st sender amount timestamp hash).sent
          = [(sender, (amount : Int))] ∧
      (Paw.processUserDeposit env st sender amount timestamp hash).state
          = Paw.claimPromoted st sender ∧
      (Paw.processUserDeposit env st sender amount timestamp hash).state.deposits
          = st.deposits ∧
      (Paw.processUserDeposit env st sender amount timestamp hash).state.pawBalance
          = st.pawBalance ∧
      (Paw.processUserDeposit env st sender amount timestamp hash).result = false) ∧
    (RedisUsersDepositsStorage.isClaimed (Paw.claimPromoted st sender) sender = true →
      env.floatRoundTripDiffers amount = true →
      (Paw.processUserDeposit env st sender amount timestamp hash).sent
          = [(sender, (amount : Int))] ∧
      (Paw.processUserDeposit env st sender amount timestamp hash).state.deposits
          = st.deposits ∧
      (Paw.processUserDeposit env st sender amount timestamp hash).state.pawBalance
          = st.pawBalance ∧
      (Paw.processUserDeposit env st sender amount timestamp hash).result = false) ∧
    (RedisUsersDepositsStorage.isClaimed (Paw.claimPromoted st sender) sender = true →
      env.floatRoundTripDiffers amount = false →
      (Paw.processUserDeposit env st sender amount timestamp hash).state
          = UsersDepositsService.storeUserDeposit (Paw.claimPromoted st sender)
              sender (amount : Int) timestamp hash ∧
      (Paw.processUserDeposit env st sender amount timestamp hash).sweepInvoked = true ∧
      (Paw.processUserDeposit env st sender amount timestamp hash).result = true) := by
  obtain ⟨hbal, hdep, -, -, -⟩ := claimPromoted_preserves st sender
  refine ⟨?_, ?_, ?_, ?_⟩
  · simp only [Paw.processUserDeposit]
    split_ifs <;> simp
  · intro hcl
    simp only [Paw.processUserDeposit, hcl]
    simp [hdep, hbal]
  · intro hcl hdec
    simp only [Paw.processUserDeposit, hcl, hdec]
    simp [hdep, hbal]
  · intro hcl hdec
    simp only [Paw.processUserDeposit, hcl, hdec]
    simp

/-- C3 (code defect witnessed): the deposit of 10^16 + 1 wei
(0.010000000000000001 PAW) has more than two decimal places of native
coin, yet the source's check (`number = Number.parseFloat` of the
formatted amount, compared against `Math.round(number * 100) / 100`)
returns false there: the nearest IEEE-754 double to 0.010000000000000001
is the double of 0.01 itself (that double sits 0.208·10^-18 above 0.01,
hence 0.792·10^-18 below 0.010000000000000001, within the half-ulp bound
2^-60 ≈ 0.867·10^-18 at that magnitude), `number * 100` rounds to exactly
1 (one ulp at 1 is 2^-52), `Math.round` keeps it, and dividing by 100
returns the double of 0.01 again — so `rounded` equals `number` and the
comparison does not fire.  The hypothesis `hfloat` records that value of
the float capability.  Then, for every state in which the sender is claimed, the
code stores the more-than-two-decimal deposit and invokes the hot/cold
sweep instead of refunding it with no record, contradicting the claim and
the spec's invariant I6.  (The divergence also runs the other way: amounts
with exactly two decimals but more than about 2^53 / 100 whole units fail
the float round-trip and are refunded.) -/
theorem c3_two_decimal_refund_bypassed (env : PawEnv) (st : RedisState)
    (hfloat : env.floatRoundTripDiffers (10 ^ 16 + 1) = false)
    (hclaimed : RedisUsersDepositsStorage.isClaimed
      (Paw.claimPromoted st "paw_s") "paw_s" = true) :
    Paw.specHasMoreThanTwoDecimals (10 ^ 16 + 1) = true ∧
    (Paw.processUserDeposit env st "paw_s" (10 ^ 16 + 1) 0 "0xh").result = true ∧
    (Paw.processUserDeposit env st "paw_s" (10 ^ 16 + 1) 0 "0xh").sweepInvoked = true ∧
    (Paw.processUserDeposit env st "paw_s" (10 ^ 16 + 1) 0 "0xh").state
        = UsersDepositsService.storeUserDeposit (Paw.claimPromoted st "paw_s")
            "paw_s" ((10 ^ 16 + 1 : Nat) : Int) 0 "0xh" ∧
    RedisUsersDepositsStorage.containsUserDepositTransaction
      (Paw.processUserDeposit env st "paw_s" (10 ^ 16 + 1) 0 "0xh").state
      "paw_s" "0xh" = true := by
  refine ⟨by decide, ?_, ?_, ?_, ?_⟩ <;>
  · simp only [Paw.processUserDeposit, hclaimed, hfloat]
    simp [storeUserDeposit_contains]

/-- Witness for C3: with the float capability fixed at the value the
IEEE-754 computation takes at 10^16 + 1 wei (false, see the theorem), a
claimed sender's 0.010000000000000001 PAW deposit is accepted and its
record stored. -/
theorem c3_two_decimal_refund_bypassed_witness :
    (Paw.processUserDeposit
        { testPawEnv with floatRoundTripDiffers := fun _ => false }
        { emptyRedisState with claims := [("paw_s", "0xa")] }
        "paw_s" (10 ^ 16 + 1) 0 "0xh").result = true ∧
    RedisUsersDepositsStorage.containsUserDepositTransaction
      (Paw.processUserDeposit
        { testPawEnv with floatRoundTripDiffers := fun _ => false }
        { emptyRedisState with claims := [("paw_s", "0xa")] }
        "paw_s" (10 ^ 16 + 1) 0 "0xh").state "paw_s" "0xh" = true :=
  ⟨(c3_two_decimal_refund_bypassed
      { testPawEnv with floatRoundTripDiffers := fun _ => false }
      { emptyRedisState with claims := [("paw_s", "0xa")] }
      rfl (by decide)).2.1,
   (c3_two_decimal_refund_bypassed
      { testPawEnv with floatRoundTripDiffers := fun _ => false }
      { emptyRedisState with claims := [("paw_s", "0xa")] }
      rfl (by decide)).2.2.2.2⟩

/-- C7: a wrapped-to-native swap whose (evm, hash) pair is already recorded
returns success reporting the same hash without mutating any state, while a
swap with an unrecorded hash credits the native-side balance by its amount,
appends the record to the swap set and writes the audit entry. -/
theorem c7_swap_to_paw_idempotent (st : RedisState) (swap : SwapWPAWToPaw) :
    (RedisUsersDepositsStorage.swapToPawWasAlreadyDone st swap = true →
      Service.processSwapToPAW st swap = (st, swap.hash, swap.wpawBalance)) ∧
    (RedisUsersDepositsStorage.swapToPawWasAlreadyDone st swap = false →
      (Service.processSwapToPAW st swap).2 = (swap.hash, swap.wpawBalance) ∧
      RedisUsersDepositsStorage.getUserAvailableBalance
          (Service.processSwapToPAW st swap).1 swap.pawWallet
        = RedisUsersDepositsStorage.getUserAvailableBalance st swap.pawWallet
            + swap.amount ∧
      (Service.processSwapToPAW st swap).1.swapsWpawToPaw
          (toLowercase swap.blockchainWallet)
        = st.swapsWpawToPaw (toLowercase swap.blockchainWallet)
            ++ [(swap.timestamp * 1000, swap.hash)] ∧
      (Service.processSwapToPAW st swap).1.audit swap.hash
        = some ⟨"swap-to-paw", swap.hash, some (toLowercase swap.pawWallet),
            swap.amount, swap.timestamp * 1000⟩) := by
  constructor
  · intro h
    simp only [Service.processSwapToPAW, h]
    rfl
  · intro h
    simp only [Service.processSwapToPAW, RedisUsersDepositsStorage.storeUserSwapToPaw, h]
    refine ⟨rfl, ?_, ?_, ?_⟩
    · simp [RedisUsersDepositsStorage.getUserAvailableBalance]
    · have h' : (st.swapsWpawToPaw (toLowercase swap.blockchainWallet)).any
          (fun e => e.2 == swap.hash) = false := h
      simp [zadd, h']
    · simp

/-- Witness for C7: in a state that already records hash `0xs1` for wallet
`0xevm`, the swap is a no-op returning `0xs1`; from the empty state the
same swap credits 3 PAW to `paw_bob` and appends the record. -/
theorem c7_swap_to_paw_idempotent_witness :
    Service.processSwapToPAW
        { emptyRedisState with
          swapsWpawToPaw := fun k => if k = "0xevm" then [(7000, "0xs1")] else [] }
        ⟨"paw_bob", 3 * 10 ^ 18, "0xevm", 7, "1.0", "0xs1"⟩
      = ({ emptyRedisState with
          swapsWpawToPaw := fun k => if k = "0xevm" then [(7000, "0xs1")] else [] },
         "0xs1", "1.0") ∧
    RedisUsersDepositsStorage.getUserAvailableBalance
        (Service.processSwapToPAW emptyRedisState
          ⟨"paw_bob", 3 * 10 ^ 18, "0xevm", 7, "1.0", "0xs1"⟩).1 "paw_bob"
      = RedisUsersDepositsStorage.getUserAvailableBalance emptyRedisState "paw_bob"
          + 3 * 10 ^ 18 := by
  constructor
  · exact (c7_swap_to_paw_idempotent
      { emptyRedisState with
        swapsWpawToPaw := fun k => if k = "0xevm" then [(7000, "0xs1")] else [] }
      ⟨"paw_bob", 3 * 10 ^ 18, "0xevm", 7, "1.0", "0xs1"⟩).1 (by decide)
  · exact ((c7_swap_to_paw_idempotent emptyRedisState
      ⟨"paw_bob", 3 * 10 ^ 18, "0xevm", 7, "1.0", "0xs1"⟩).2 (by decide)).2.1

/-- C8: storing a deposit is idempotent in the transaction hash: from a
state that does not yet contain the hash, storing it twice leaves the state
of the first store, exactly one deposit record for the hash, and a balance
increased only by the first store's amount. -/
theorem c8_store_deposit_idempotent (st : RedisState) (addr hash : String)
    (a1 t1 a2 t2 : Int)
    (h : RedisUsersDepositsStorage.containsUserDepositTransaction st addr hash = false) :
    UsersDepositsService.storeUserDeposit
        (UsersDepositsService.storeUserDeposit st addr a1 t1 hash) addr a2 t2 hash
      = UsersDepositsService.storeUserDeposit st addr a1 t1 hash ∧
    depositRecordCount
        (UsersDepositsService.storeUserDeposit
          (UsersDepositsService.storeUserDeposit st addr a1 t1 hash) addr a2 t2 hash)
        addr hash = 1 ∧
    RedisUsersDepositsStorage.getUserAvailableBalance
        (UsersDepositsService.storeUserDeposit
          (UsersDepositsService.storeUserDeposit st addr a1 t1 hash) addr a2 t2 hash)
        addr
      = RedisUsersDepositsStorage.getUserAvailableBalance st addr + a1 := by
  have hstore1 : UsersDepositsService.storeUserDeposit st addr a1 t1 hash
      = RedisUsersDepositsStorage.storeUserDeposit st addr a1 t1 hash := by
    simp [UsersDepositsService.storeUserDeposit, h]
  have hcontains : RedisUsersDepositsStorage.containsUserDepositTransaction
      (RedisUsersDepositsStorage.storeUserDeposit st addr a1 t1 hash) addr hash = true := by
    simp [RedisUsersDepositsStorage.containsUserDepositTransaction,
      RedisUsersDepositsStorage.storeUserDeposit, zadd_contains]
  have hstore2 : UsersDepositsService.storeUserDeposit
      (RedisUsersDepositsStorage.storeUserDeposit st addr a1 t1 hash) addr a2 t2 hash
      = RedisUsersDepositsStorage.storeUserDeposit st addr a1 t1 hash := by
    simp [UsersDepositsService.storeUserDeposit, hcontains]
  have hany : (st.deposits (toLowercase addr)).any (fun e => e.2 == hash) = false := h
  have hfilter : (st.deposits (toLowercase addr)).filter (fun e => e.2 == hash) = [] := by
    rw [List.filter_eq_nil_iff]
    intro e he hc
    have htrue : (st.deposits (toLowercase addr)).any (fun e => e.2 == hash) = true :=
      List.any_eq_true.mpr ⟨e, he, hc⟩
    rw [hany] at htrue
    exact Bool.noConfusion htrue
  refine ⟨by rw [hstore1, hstore2], ?_, ?_⟩
  · rw [hstore1, hstore2]
    simp only [depositRecordCount, RedisUsersDepositsStorage.storeUserDeposit]
    simp [zadd, hany, hfilter]
  · rw [hstore1, hstore2]
    simp [RedisUsersDepositsStorage.storeUserDeposit,
      RedisUsersDepositsStorage.getUserAvailableBalance]

/-- Witness for C8: from the empty state, storing hash `0xd1` twice for
`paw_carol` leaves one record and a balance equal to the first amount. -/
theorem c8_store_deposit_idempotent_witness :
    depositRecordCount
        (UsersDepositsService.storeUserDeposit
          (UsersDepositsService.storeUserDeposit emptyRedisState "paw_carol"
            (2 * 10 ^ 18) 11 "0xd1") "paw_carol" (5 * 10 ^ 18) 12 "0xd1")
        "paw_carol" "0xd1" = 1 ∧
    RedisUsersDepositsStorage.getUserAvailableBalance
        (UsersDepositsService.storeUserDeposit
          (UsersDepositsService.storeUserDeposit emptyRedisState "paw_carol"
            (2 * 10 ^ 18) 11 "0xd1") "paw_carol" (5 * 10 ^ 18) 12 "0xd1")
        "paw_carol"
      = RedisUsersDepositsStorage.getUserAvailableBalance emptyRedisState "paw_carol"
          + 2 * 10 ^ 18 :=
  ⟨(c8_store_deposit_idempotent emptyRedisState "paw_carol" "0xd1"
      (2 * 10 ^ 18) 11 (5 * 10 ^ 18) 12 (by decide)).2.1,
   (c8_store_deposit_idempotent emptyRedisState "paw_carol" "0xd1"
      (2 * 10 ^ 18) 11 (5 * 10 ^ 18) 12 (by decide)).2.2⟩

/-- C1 (code defect witnessed): the claim-ownership guards of
`processWithdrawPAW` never fire because the source tests the un-awaited
Promises of `isClaimed` and `hasClaim`.  Concretely: `paw_alice` has no
confirmed claim at all (`isClaimed` and `hasClaim` are false), yet a
150 PAW withdrawal against a 200 PAW balance with a 300 PAW hot wallet
succeeds — the native coin is sent, the withdrawal record is stored and
the balance drops to 50 PAW, instead of failing fatally with no send, no
record and an unchanged balance. -/
theorem c1_unclaimed_withdrawal_processed :
    RedisUsersDepositsStorage.isClaimed unclaimedAliceState "paw_alice" = false ∧
    RedisUsersDepositsStorage.hasClaim unclaimedAliceState "paw_alice" "0xabc" = false ∧
    (Service.processWithdrawPAW testServiceEnv unclaimedAliceState
        ⟨"paw_alice", 150 * 10 ^ 18, "0xabc", "0xsig", 17000, 0⟩ "150.0"
        (some "0xsig")).toOption.map
      (fun out => (out.hash, out.sent))
      = some ("0xhash", [("paw_alice", (150 * 10 ^ 18 : Int))]) ∧
    (Service.processWithdrawPAW testServiceEnv unclaimedAliceState
        ⟨"paw_alice", 150 * 10 ^ 18, "0xabc", "0xsig", 17000, 0⟩ "150.0"
        (some "0xsig")).toOption.map
      (fun out => RedisUsersDepositsStorage.containsUserWithdrawalRequest
        out.state "paw_alice" 17000) = some true ∧
    (Service.processWithdrawPAW testServiceEnv unclaimedAliceState
        ⟨"paw_alice", 150 * 10 ^ 18, "0xabc", "0xsig", 17000, 0⟩ "150.0"
        (some "0xsig")).toOption.map
      (fun out => RedisUsersDepositsStorage.getUserAvailableBalance
        out.state "paw_alice") = some (50 * 10 ^ 18) := by
  decide

/-- C4 counterexample: in a sweep whose first pending receivable is a
self-pay from the hot wallet, the second receivable — sent by an ordinary
user to the hot wallet — is not enqueued as a deposit job: the sweep
returns after receiving the self-pay, so the classification of one
receivable does prevent the later ones from being processed. -/
theorem c4_sweep_counterexample :
    Paw.processPendingTransactions "paw_hot" "paw_cold"
        [⟨"0xt1", "5000000000000", "paw_hot"⟩, ⟨"0xt2", "7000000000000", "paw_user"⟩]
      = (["0xt1"], []) ∧
    "paw_user" ≠ "paw_hot" ∧ "paw_user" ≠ "paw_cold" := by
  decide

/-- C4 (amended): the sweep processes the longest prefix of receivables at
which it does not stop — every receivable of that prefix that parses and is
not a hot- or cold-wallet self-pay is enqueued as a deposit job
(unparseable raw amounts are skipped by the per-iteration catch) — and the
first self-pay or sub-nine-digit receivable, when one exists, is only
received, terminating the sweep so that the receivables after it are left
to the next sweep. -/
theorem c4_sweep_classification (hot cold : String) (txs : List PendingTx) :
    (Paw.processPendingTransactions hot cold txs).2
        = (txs.takeWhile (fun tx => !(Paw.sweepStop hot cold tx))).filterMap
            Paw.sweepDepositJob ∧
    (Paw.processPendingTransactions hot cold txs).1
        = ((txs.dropWhile (fun tx => !(Paw.sweepStop hot cold tx))).head?.map
            PendingTx.hash).toList := by
  induction txs with
  | nil => simp [Paw.processPendingTransactions]
  | cons tx rest ih =>
    obtain ⟨ih1, ih2⟩ := ih
    by_cases hd : tx.amount.length < 9
    · simp [Paw.processPendingTransactions, Paw.sweepStop, hd]
    · cases hp : Paw.stripRawDigits tx.amount with
      | none =>
        simp [Paw.processPendingTransactions, Paw.sweepStop, Paw.sweepDepositJob,
          hd, hp, ih1, ih2]
      | some n =>
        by_cases hsp : (tx.source == hot || tx.source == cold) = true
        · have hstop : Paw.sweepStop hot cold tx = true := by
            simp [Paw.sweepStop, hp, hsp]
          have hproc : Paw.processPendingTransactions hot cold (tx :: rest)
              = ([tx.hash], []) := by
            simp [Paw.processPendingTransactions, hd, hp, hsp]
          rw [hproc]
          simp [List.takeWhile_cons, List.dropWhile_cons, hstop]
        · simp only [Bool.not_eq_true] at hsp
          have hstop : Paw.sweepStop hot cold tx = false := by
            simp [Paw.sweepStop, hp, hd, hsp]
          have hproc : Paw.processPendingTransactions hot cold (tx :: rest)
              = ((Paw.processPendingTransactions hot cold rest).1,
                  ⟨tx.source, n, tx.hash⟩
                    :: (Paw.processPendingTransactions hot cold rest).2) := by
            simp [Paw.processPendingTransactions, hd, hp, hsp]
          rw [hproc]
          constructor
          · simp [List.takeWhile_cons, hstop, Paw.sweepDepositJob, hp, ih1]
          · simp [List.dropWhile_cons, hstop, ih2]

/-- C5 counterexample: an original withdrawal job (attempt 0) of 150 PAW
against a 200 PAW balance but a 100 PAW hot wallet does not make the
worker throw the "replaced" error: because `addPawUserPendingWithdrawal`
mutates the shared job object's `attempt` to 1, the worker's
`attempt === 1` test passes and it completes normally with an empty
transaction, while the pending job is enqueued with attempt 1, a 60 000 ms
delay, `removeOnFail`, no send and no store. -/
theorem c5_replaced_error_counterexample :
    (Service.withdrawalProcessor
        { testServiceEnv with hotWalletBalance := 100 * 10 ^ 18 }
        { unclaimedAliceState with claims := [("paw_alice", "0xabc")] }
        ⟨"paw_alice", 150 * 10 ^ 18, "0xabc", "0xsig", 17000, 0⟩ "150.0"
        (some "0xsig")).toOption.map
      (fun p => (p.2,
        p.1.pendingEnqueued.map (fun j => (j.jobId, j.delay, j.removeOnFail, j.data.attempt)),
        p.1.sent))
      = some ("",
          [("pending-paw-withdrawal-paw_alice-17000-attempt-1", 60000, true, 1)],
          []) := by
  rfl

/-- C5 (amended): for every withdrawal whose prior checks pass but whose
hot-wallet balance is less than the amount, nothing is sent and nothing is
stored; a pending withdrawal is enqueued whose attempt counter is
incremented by one, with delay attempt × 60 000 ms and removed on failure;
and the worker of an original (attempt 0) job completes normally with an
empty transaction — only the worker of a retried job (attempt ≥ 1 before
the increment) throws the "replaced" error. -/
theorem c5_pending_withdrawal_contract (env : ServiceEnv) (st : RedisState)
    (w : PawUserWithdrawal) (amountStr : String) (signature : Option String)
    (h1 : RedisUsersDepositsStorage.containsUserWithdrawalRequest st
      w.pawWallet w.timestamp = false)
    (h2 : (match signature with
      | some s => Service.checkSignature env w.blockchainWallet s
          (Service.withdrawChallenge amountStr w.pawWallet)
      | none => true) = true)
    (h3 : 0 ≤ w.amount)
    (h4 : w.amount ≤ RedisUsersDepositsStorage.getUserAvailableBalance st w.pawWallet)
    (h5 : env.hotWalletBalance < w.amount) :
    Service.processWithdrawPAW env st w amountStr signature
      = Except.ok (specPendingWithdrawalOutcome st w) ∧
    (w.attempt = 0 →
      Service.withdrawalProcessor env st w amountStr signature
        = Except.ok (specPendingWithdrawalOutcome st w, "")) ∧
    (w.attempt ≠ 0 →
      Service.withdrawalProcessor env st w amountStr signature
        = Except.error "Old pending withdrawal request replaced by a new one") := by
  have hmain : Service.processWithdrawPAW env st w amountStr signature
      = Except.ok (specPendingWithdrawalOutcome st w) := by
    rcases signature with _ | s
    · unfold Service.processWithdrawPAW
      rw [if_neg (by simp [h1]), if_neg (by simp), if_neg (not_lt.mpr h3),
        if_neg (not_lt.mpr h4), if_pos h5]
      simp [RedisProcessingQueue.addPawUserPendingWithdrawal,
        RedisProcessingQueue.PENDING_WITHDRAWAL_RETRY_DELAY,
        specPendingWithdrawalOutcome]
    · have h2x : Service.checkSignature env w.blockchainWallet s
          (Service.withdrawChallenge amountStr w.pawWallet) = true := h2
      unfold Service.processWithdrawPAW
      rw [if_neg (by simp [h1]), if_neg (by simp [h2x]), if_neg (not_lt.mpr h3),
        if_neg (not_lt.mpr h4), if_pos h5]
      simp [RedisProcessingQueue.addPawUserPendingWithdrawal,
        RedisProcessingQueue.PENDING_WITHDRAWAL_RETRY_DELAY,
        specPendingWithdrawalOutcome]
  refine ⟨hmain, ?_, ?_⟩
  · intro h0
    unfold Service.withdrawalProcessor
    rw [hmain]
    simp [specPendingWithdrawalOutcome, h0]
  · intro h0
    have hne : (w.attempt + 1 == 1) = false := by
      simp only [beq_eq_false_iff_ne, ne_eq]
      omega
    unfold Service.withdrawalProcessor
    rw [hmain]
    simp [specPendingWithdrawalOutcome, hne]

/-- Witness for C5: the first retry (attempt 1) of the 150 PAW withdrawal
against a 100 PAW hot wallet fails with the "replaced" error, and the
original job (attempt 0) enqueues the pending withdrawal and completes. -/
theorem c5_pending_withdrawal_contract_witness :
    Service.withdrawalProcessor
        { testServiceEnv with hotWalletBalance := 100 * 10 ^ 18 }
        { unclaimedAliceState with claims := [("paw_alice", "0xabc")] }
        ⟨"paw_alice", 150 * 10 ^ 18, "0xabc", "0xsig", 17000, 1⟩ "150.0" none
      = Except.error "Old pending withdrawal request replaced by a new one" ∧
    Service.processWithdrawPAW
        { testServiceEnv with hotWalletBalance := 100 * 10 ^ 18 }
        { unclaimedAliceState with claims := [("paw_alice", "0xabc")] }
        ⟨"paw_alice", 150 * 10 ^ 18, "0xabc", "0xsig", 17000, 0⟩ "150.0" none
      = Except.ok (specPendingWithdrawalOutcome
          { unclaimedAliceState with claims := [("paw_alice", "0xabc")] }
          ⟨"paw_alice", 150 * 10 ^ 18, "0xabc", "0xsig", 17000, 0⟩) :=
  ⟨(c5_pending_withdrawal_contract
      { testServiceEnv with hotWalletBalance := 100 * 10 ^ 18 }
      { unclaimedAliceState with claims := [("paw_alice", "0xabc")] }
      ⟨"paw_alice", 150 * 10 ^ 18, "0xabc", "0xsig", 17000, 1⟩ "150.0" none
      (by decide) (by decide) (by decide) (by decide) (by decide)).2.2 (by decide),
   (c5_pending_withdrawal_contract
      { testServiceEnv with hotWalletBalance := 100 * 10 ^ 18 }
      { unclaimedAliceState with claims := [("paw_alice", "0xabc")] }
      ⟨"paw_alice", 150 * 10 ^ 18, "0xabc", "0xsig", 17000, 0⟩ "150.0" none
      (by decide) (by decide) (by decide) (by decide) (by decide)).1⟩
